import Mathlib

/-!
# SoundAnalizer — verification of the windowed aggregation, threshold
# evaluation and hysteresis state machine

Shallow embedding of the core of the `SoundAnalizer` repository
(`models.py`, `rules/thresholds.py`, `rules/state_machine.py`,
`workers/device_worker.py`).  Numeric values (timestamps, sound levels,
thresholds) are modelled as rationals `ℚ`; Python `None` becomes `Option`;
Python dicts that are only read through `.get`/iteration become association
lists.  Functions are translated clause by clause from the Python source.
-/

namespace SoundAnalizer

/-- A stored measurement row, as returned by the DB client: a dict from
column name to an optional numeric value.  `dict.get(k)` returns `None`
both when the key is absent and when the stored value is `NULL`, which
`Row.get` reproduces. -/
abbrev Row : Type := List (String × Option ℚ)

def Row.get (r : Row) (k : String) : Option ℚ :=
  (List.lookup k r).bind id

/-- Embedding of `models.Fact`: the aggregated window handed to the rules. -/
structure Fact where
  ts_from : ℚ
  ts_to : ℚ
  src : String
  spl_max : Option ℚ := none
  lmax_max : Option ℚ := none
  leq_1s_avg : Option ℚ := none
  leq_60s_last : Option ℚ := none
  bands_max : List (String × Option ℚ) := []
  leq_avg : Option ℚ := none
  exceeded_levels : List (String × Bool) := []
  exceeded_bands : List (String × Bool) := []
  deriving DecidableEq, Repr

/-- The `notify` sub-config; only `send_recovery` is read by the embedded
core (`state_machine.py`). -/
structure NotifyConfig where
  send_recovery : Bool
  deriving DecidableEq, Repr

/-- Embedding of `env.Config`, restricted to the fields the embedded core reads.
Integer-valued config fields (`*_ms`, `window_seconds`) are embedded in `ℚ`
because the Python code only compares them against float quantities. -/
structure Config where
  window_seconds : ℚ
  umik_thr_spl : Option ℚ := none
  umik_thr_leq_1s : Option ℚ := none
  umik_thr_leq_60s : Option ℚ := none
  umik_thr_lmax : Option ℚ := none
  umik_thr_bands : List (String × ℚ) := []
  analog_thr_spl : Option ℚ := none
  analog_thr_leq : Option ℚ := none
  analog_thr_lmax : Option ℚ := none
  trigger_hold_ms : ℚ
  recover_hold_ms : ℚ
  cooldown_ms : ℚ
  retrigger_gap_ms : ℚ
  consecutive_required : ℤ
  notify : NotifyConfig
  deriving DecidableEq, Repr

/-- The Python idiom `v is not None and v > thr` used for every level
check in `check_levels_and_bands`. -/
def presentAndGt (v : Option ℚ) (thr : ℚ) : Bool :=
  match v with
  | none => false
  | some x => decide (x > thr)

/-- The `exceeded_levels` dict built by the `fact.src == "UMIK"` branch of
`check_levels_and_bands`: one entry per configured level threshold, in
insertion order spl, leq_1s, leq_60s, lmax. -/
def umikLevels (fact : Fact) (config : Config) : List (String × Bool) :=
  (match config.umik_thr_spl with
   | some thr => [("spl", presentAndGt fact.spl_max thr)]
   | none => []) ++
  (match config.umik_thr_leq_1s with
   | some thr => [("leq_1s", presentAndGt fact.leq_1s_avg thr)]
   | none => []) ++
  (match config.umik_thr_leq_60s with
   | some thr => [("leq_60s", presentAndGt fact.leq_60s_last thr)]
   | none => []) ++
  (match config.umik_thr_lmax with
   | some thr => [("lmax", presentAndGt fact.lmax_max thr)]
   | none => [])

/-- The `exceeded_bands` dict built by the UMIK branch: iterate the
configured band thresholds; a band whose aggregate value is `None` (or
absent from `bands_max`) is skipped, i.e. absent from the result. -/
def umikBands (fact : Fact) (config : Config) : List (String × Bool) :=
  config.umik_thr_bands.filterMap (fun p =>
    match Row.get fact.bands_max p.1 with
    | some val => some (p.1, decide (val > p.2))
    | none => none)

/-- The `exceeded_levels` dict built by the `fact.src == "ANALOG"` branch:
insertion order spl, leq, lmax. -/
def analogLevels (fact : Fact) (config : Config) : List (String × Bool) :=
  (match config.analog_thr_spl with
   | some thr => [("spl", presentAndGt fact.spl_max thr)]
   | none => []) ++
  (match config.analog_thr_leq with
   | some thr => [("leq", presentAndGt fact.leq_avg thr)]
   | none => []) ++
  (match config.analog_thr_lmax with
   | some thr => [("lmax", presentAndGt fact.lmax_max thr)]
   | none => [])

/-- Embedding of `rules/thresholds.check_levels_and_bands`.  For an unknown `src` the
Python code only logs a warning and still returns the fact with both
exceedance dicts empty (no exception reaches the caller). -/
def check_levels_and_bands (fact : Fact) (config : Config) : Fact :=
  if fact.src = "UMIK" then
    { fact with
        exceeded_levels := umikLevels fact config
        exceeded_bands := umikBands fact config }
  else if fact.src = "ANALOG" then
    { fact with
        exceeded_levels := analogLevels fact config
        exceeded_bands := [] }
  else
    { fact with exceeded_levels := [], exceeded_bands := [] }

/-- Embedding of `rules/thresholds.is_exceeded`: overall flag plus the two dicts. -/
def is_exceeded (fact : Fact) :
    Bool × List (String × Bool) × List (String × Bool) :=
  (fact.exceeded_levels.any (fun p => p.2) ||
     fact.exceeded_bands.any (fun p => p.2),
   fact.exceeded_levels, fact.exceeded_bands)

/-- The thresholds dict the worker passes to `StateMachine.step`; it is
only carried through into the built `Event`. -/
structure ThresholdsView where
  levels : List (String × Option ℚ) := []
  bands : List (String × ℚ) := []
  deriving DecidableEq, Repr

/-- Embedding of `models.Event`.  The Python field `exceeded` is the two-key dict
`{"levels": …, "bands": …}`, embedded as the two fields
`exceeded_levels`/`exceeded_bands`. -/
structure Event where
  type : String
  src : String
  ts_first : ℚ
  ts_last : ℚ
  levels : List (String × Option ℚ) := []
  octaves : List (String × Option ℚ) := []
  exceeded_levels : List (String × Bool) := []
  exceeded_bands : List (String × Bool) := []
  thresholds : ThresholdsView := {}
  samples : ℕ := 0
  window_sec : ℚ := 0
  deriving DecidableEq, Repr

/-- The three values `StateMachine.state` ranges over. -/
inductive SMState where
  | NORMAL
  | ALERT
  | COOLDOWN
  deriving DecidableEq, Repr

/-- The mutable fields of `rules/state_machine.StateMachine` (the config is
passed separately; `time.time()` becomes an explicit `now` argument of
`step`, with `now_ms = now * 1000`). -/
structure Machine where
  src : String
  state : SMState
  last_transition : ℚ
  active_since : Option ℚ
  recovery_since : Option ℚ
  consec_hit : ℕ
  consec_ok : ℕ
  last_alert_at_ms : Option ℚ
  deriving DecidableEq, Repr

/-- Embedding of `StateMachine.__init__`: initial state for one source, constructed at
time `now`. -/
def Machine.init (src : String) (now : ℚ) : Machine :=
  { src := src
    state := .NORMAL
    last_transition := now
    active_since := none
    recovery_since := none
    consec_hit := 0
    consec_ok := 0
    last_alert_at_ms := none }

/-- Embedding of `StateMachine._win_seconds`: `max(0.0, ts_to - ts_from)` (the
`except` fallback to `cfg.window_seconds` is unreachable on numeric
timestamps). -/
def win_seconds (fact : Fact) : ℚ :=
  max 0 (fact.ts_to - fact.ts_from)

/-- Embedding of `StateMachine._make_event`: assembles the `Event`; note `samples=0`
(the Python comment says the worker will fill it in). -/
def Machine.make_event (m : Machine) (etype : String) (fact : Fact)
    (thresholds : ThresholdsView)
    (exceeded_levels exceeded_bands : List (String × Bool)) : Event :=
  { type := etype
    src := m.src
    ts_first := fact.ts_from
    ts_last := fact.ts_to
    levels := [("spl_max", fact.spl_max), ("lmax_max", fact.lmax_max),
               ("leq_1s_avg", fact.leq_1s_avg),
               ("leq_60s_last", fact.leq_60s_last),
               ("leq_avg", fact.leq_avg)]
    octaves := if m.src = "UMIK" then fact.bands_max else []
    exceeded_levels := exceeded_levels
    exceeded_bands := exceeded_bands
    thresholds := thresholds
    samples := 0
    window_sec := win_seconds fact }

/-- Embedding of `StateMachine.step`, with the wall clock passed in as `now` (seconds).
Returns the updated machine and the optional emitted event. -/
def Machine.step (m : Machine) (cfg : Config) (now : ℚ) (fact : Fact)
    (thresholds : ThresholdsView) : Machine × Option Event :=
  let now_ms := now * 1000
  let r := is_exceeded fact
  let flag := r.1
  let exceeded_levels := r.2.1
  let exceeded_bands := r.2.2
  -- update the run-length counters
  let m1 : Machine :=
    if flag then
      { m with
          consec_hit := m.consec_hit + 1
          consec_ok := 0
          active_since := some (m.active_since.getD now) }
    else
      { m with
          consec_ok := m.consec_ok + 1
          consec_hit := 0
          recovery_since := some (m.recovery_since.getD now)
          active_since := none }
  match m1.state with
  | .NORMAL =>
      let hit_long_enough :=
        match m1.active_since with
        | none => false
        | some t => decide ((now - t) * 1000 ≥ cfg.trigger_hold_ms)
      let enough_seq := decide ((m1.consec_hit : ℤ) ≥ cfg.consecutive_required)
      let gap_ok :=
        match m1.last_alert_at_ms with
        | none => true
        | some t => decide (now_ms - t ≥ cfg.retrigger_gap_ms)
      if flag && hit_long_enough && enough_seq && gap_ok then
        let m2 : Machine :=
          { m1 with
              state := .ALERT
              last_transition := now
              last_alert_at_ms := some now_ms
              recovery_since := none }
        let ev := m2.make_event "ALERT" fact thresholds
          exceeded_levels exceeded_bands
        -- immediately move on to COOLDOWN (anti-chatter)
        ({ m2 with state := .COOLDOWN, last_transition := now }, some ev)
      else
        (m1, none)
  | .ALERT =>
      let recovered :=
        !flag &&
          (match m1.recovery_since with
           | none => false
           | some t => decide ((now - t) * 1000 ≥ cfg.recover_hold_ms))
      if recovered then
        let m2 : Machine := { m1 with state := .COOLDOWN, last_transition := now }
        if cfg.notify.send_recovery then
          (m2, some (m2.make_event "RECOVERY" fact thresholds
            exceeded_levels exceeded_bands))
        else
          (m2, none)
      else
        (m1, none)
  | .COOLDOWN =>
      if (now - m1.last_transition) * 1000 ≥ cfg.cooldown_ms then
        ({ m1 with
            state := .NORMAL
            active_since := none
            recovery_since := none
            consec_hit := 0
            consec_ok := 0
            last_transition := now }, none)
      else
        (m1, none)

/-- Embedding of `workers/device_worker._safe_max`: drop the `None`s, `max` of the rest,
`None` when nothing is left.  `List.max?` is exactly Python `max` on a
possibly-empty list guarded by the emptiness check. -/
def safe_max (values : List (Option ℚ)) : Option ℚ :=
  (values.filterMap id).max?

/-- Embedding of `workers/device_worker._safe_avg`: drop the `None`s, arithmetic mean of
the rest, `None` when nothing is left. -/
def safe_avg (values : List (Option ℚ)) : Option ℚ :=
  if (values.filterMap id) = [] then none
  else some ((values.filterMap id).sum / (values.filterMap id).length)

/-- The nine octave-band columns iterated by `_make_fact` for UMIK. -/
def umikBandCols : List String :=
  ["31.5_Hz", "63.0_Hz", "125.0_Hz", "250.0_Hz", "500.0_Hz",
   "1000.0_Hz", "2000.0_Hz", "4000.0_Hz", "8000.0_Hz"]

/-- The `leq_60s` scan in `_make_fact`: first non-`None` value of the
`leq_60s` column, walking the rows in their stored order (the DB returns
them most-recent-first). -/
def leq60Scan : List Row → Option ℚ
  | [] => none
  | r :: rest =>
      match Row.get r "leq_60s" with
      | some val => some val
      | none => leq60Scan rest

/-- Embedding of `DeviceWorker._make_fact`: aggregate a window of rows into a `Fact`. -/
def make_fact (kind : String) (rows : List Row) (ts_from ts_to : ℚ) : Fact :=
  if kind = "UMIK" then
    { src := "UMIK"
      ts_from := ts_from
      ts_to := ts_to
      spl_max := safe_max (rows.map (fun r => Row.get r "spl"))
      lmax_max := safe_max (rows.map (fun r => Row.get r "lmax"))
      leq_1s_avg := safe_avg (rows.map (fun r => Row.get r "leq_1s"))
      leq_60s_last := leq60Scan rows
      bands_max := umikBandCols.map
        (fun col => (col, safe_max (rows.map (fun r => Row.get r col)))) }
  else
    { src := "ANALOG"
      ts_from := ts_from
      ts_to := ts_to
      spl_max := safe_max (rows.map (fun r => Row.get r "spl"))
      lmax_max := safe_max (rows.map (fun r => Row.get r "lmax"))
      leq_avg := safe_avg (rows.map (fun r => Row.get r "leq"))
      bands_max := [] }

/-- The `thresholds_view` dict built in `DeviceWorker.poll` step 5. -/
def thresholds_view (kind : String) (cfg : Config) : ThresholdsView :=
  { levels :=
      [("spl", if kind = "UMIK" then cfg.umik_thr_spl else cfg.analog_thr_spl),
       ("leq_1s", if kind = "UMIK" then cfg.umik_thr_leq_1s else none),
       ("leq_60s", if kind = "UMIK" then cfg.umik_thr_leq_60s else none),
       ("leq", if kind = "ANALOG" then cfg.analog_thr_leq else none),
       ("lmax", if kind = "UMIK" then cfg.umik_thr_lmax else cfg.analog_thr_lmax)]
    bands := if kind = "UMIK" then cfg.umik_thr_bands else [] }

/-- The mutable per-worker state of `DeviceWorker`: the stop flag, the
deduplication anchor and the per-source state machine. -/
structure WorkerState where
  kind : String
  stopped : Bool
  last_anchor : Option ℚ
  fsm : Machine
  deriving DecidableEq, Repr

/-- The outcome of the two store calls a single `poll` may make:
`latest_ts` (which may raise, return `None`, or return a timestamp) and
the window fetch (which may raise or return rows). -/
structure StoreView where
  anchor : Except Unit (Option ℚ)
  fetch : Except Unit (List Row)
  deriving Repr

/-- What one `poll` invocation did: the worker state afterwards, the
`WindowFact` aggregated during this poll (if any), and the event handed to
the notifier (if any).  `produced = none` exactly when the poll returned
before step 3's aggregation. -/
structure PollResult where
  worker : WorkerState
  produced : Option Fact
  event : Option Event
  deriving DecidableEq, Repr

/-- Embedding of `DeviceWorker.poll`, with the store-call outcomes passed in as a
`StoreView` and the wall clock as `now`.  Mirrors the Python control flow:
the anchor comparison short-circuits, `self._last_anchor = anchor` happens
BEFORE the window fetch, and a failed fetch or an empty window returns with
the anchor already advanced.  Notifier failures do not change any state, so
the delivered event is simply returned. -/
def poll (w : WorkerState) (cfg : Config) (now : ℚ) (store : StoreView)
    (window_seconds : ℚ) : PollResult :=
  if w.stopped then ⟨w, none, none⟩ else
  match store.anchor with
  | .error _ => ⟨w, none, none⟩
  | .ok none => ⟨w, none, none⟩
  | .ok (some anchor) =>
    if (match w.last_anchor with
        | some la => decide (anchor ≤ la)
        | none => false) then
      ⟨w, none, none⟩
    else
      let w1 : WorkerState := { w with last_anchor := some anchor }
      let ts_to := anchor
      let ts_from0 := ts_to - window_seconds
      let ts_from := if ts_from0 ≥ ts_to then ts_to - 1 else ts_from0
      match store.fetch with
      | .error _ => ⟨w1, none, none⟩
      | .ok rows =>
        if rows = [] then ⟨w1, none, none⟩
        else
          let fact0 := make_fact w.kind rows ts_from ts_to
          let fact := check_levels_and_bands fact0 cfg
          let tv := thresholds_view w.kind cfg
          let r := w1.fsm.step cfg now fact tv
          ⟨{ w1 with fsm := r.1 }, some fact, r.2⟩

/-- One input to a `step` call: the wall clock and the (already
threshold-annotated) fact, plus the thresholds view passed through. -/
structure StepInput where
  now : ℚ
  fact : Fact
  tv : ThresholdsView

/-- Run the state machine over a list of step inputs, collecting the
emitted events tagged with the `now` of the call that emitted them. -/
def runMachine (cfg : Config) : Machine → List StepInput → Machine × List (ℚ × Event)
  | m, [] => (m, [])
  | m, i :: rest =>
      let r := m.step cfg i.now i.fact i.tv
      let rr := runMachine cfg r.1 rest
      (rr.1, (r.2.map (fun ev => (i.now, ev))).toList ++ rr.2)

/-- The emission times (in ms, i.e. `now * 1000`) of the ALERT events of a
run, in order. -/
def alertTimes (cfg : Config) : Machine → List StepInput → List ℚ
  | _, [] => []
  | m, i :: rest =>
      match (m.step cfg i.now i.fact i.tv).2 with
      | some ev =>
          if ev.type = "ALERT" then
            i.now * 1000 :: alertTimes cfg (m.step cfg i.now i.fact i.tv).1 rest
          else alertTimes cfg (m.step cfg i.now i.fact i.tv).1 rest
      | none => alertTimes cfg (m.step cfg i.now i.fact i.tv).1 rest

/-- A UMIK fact whose 31.5 Hz band aggregate is missing. -/
def c1fact : Fact :=
  { ts_from := 0, ts_to := 5, src := "UMIK",
    spl_max := some 60, bands_max := [("31.5_Hz", none)] }

/-- A config with a threshold configured for the 31.5 Hz band. -/
def c1config : Config :=
  { window_seconds := 5, umik_thr_bands := [("31.5_Hz", 50)],
    trigger_hold_ms := 0, recover_hold_ms := 0, cooldown_ms := 0,
    retrigger_gap_ms := 0, consecutive_required := 0, notify := ⟨true⟩ }

/-- A fact whose source is neither of the two known sources, with a value
well above both configured SPL thresholds. -/
def c8fact : Fact :=
  { ts_from := 0, ts_to := 5, src := "OTHER", spl_max := some 90 }

/-- A config with SPL thresholds configured for both known sources. -/
def c8config : Config :=
  { window_seconds := 5, umik_thr_spl := some 50, analog_thr_spl := some 50,
    trigger_hold_ms := 0, recover_hold_ms := 0, cooldown_ms := 0,
    retrigger_gap_ms := 0, consecutive_required := 0, notify := ⟨true⟩ }

/-- A machine sitting in COOLDOWN since time 1. -/
def c6machine : Machine :=
  { Machine.init "UMIK" 0 with state := .COOLDOWN, last_transition := 1 }

/-- A config with a 3000 ms cooldown. -/
def c6config : Config :=
  { window_seconds := 5, trigger_hold_ms := 1000, recover_hold_ms := 2000,
    cooldown_ms := 3000, retrigger_gap_ms := 5000,
    consecutive_required := 3, notify := ⟨true⟩ }

/-- A fact with no exceedances, used to drive cooldown steps. -/
def c6fact : Fact := { ts_from := 0, ts_to := 5, src := "UMIK" }

/-- Config for the spec scenario: SPL threshold 70, `triggerHold` 1000 ms,
`consecutiveRequired` 3. -/
def c3config : Config :=
  { window_seconds := 5, umik_thr_spl := some 70,
    trigger_hold_ms := 1000, recover_hold_ms := 2000, cooldown_ms := 3000,
    retrigger_gap_ms := 5000, consecutive_required := 3, notify := ⟨true⟩ }

/-- The third consecutive exceeding poll: `spl_max = 75`, annotated. -/
def c3fact : Fact :=
  check_levels_and_bands
    { ts_from := 0, ts_to := 1, src := "UMIK", spl_max := some 75 } c3config

/-- The machine state after the two earlier exceeding polls at t = 0 and
t = 0.5 s: exceedance running since t = 0, two consecutive hits. -/
def c3machine : Machine :=
  { Machine.init "UMIK" 0 with
      state := .NORMAL, active_since := some 0, consec_hit := 2 }

/-- Concrete window rows for the C7 witness: most-recent-first, with the
`leq_60s` metric only populated on the second row. -/
def c7r1 : Row := [("spl", some 60), ("leq_1s", none), ("leq_60s", none)]

def c7r2 : Row := [("spl", none), ("leq_60s", some 42)]

def c7r3 : Row := [("lmax", some 80)]

def c7rows : List Row := [c7r1, c7r2, c7r3]

/-- A config for the worker-level claims. -/
def c5config : Config :=
  { window_seconds := 5, umik_thr_spl := some 50,
    trigger_hold_ms := 0, recover_hold_ms := 0, cooldown_ms := 3000,
    retrigger_gap_ms := 0, consecutive_required := 1, notify := ⟨true⟩ }

/-- A freshly started UMIK worker. -/
def c5worker : WorkerState :=
  { kind := "UMIK", stopped := false, last_anchor := none,
    fsm := Machine.init "UMIK" 0 }

/-- A store whose latest timestamp is 100, with one row available. -/
def c5store : StoreView :=
  { anchor := .ok (some 100), fetch := .ok [[("spl", some 60)]] }

/-- An UMIK worker that has already processed anchor 50. -/
def c2worker : WorkerState :=
  { kind := "UMIK", stopped := false, last_anchor := some 50,
    fsm := Machine.init "UMIK" 0 }

/-- A store at anchor 100 whose window fetch fails. -/
def c2store : StoreView :=
  { anchor := .ok (some 100), fetch := .error () }

/-- The same store one tick later: same anchor, fetch now succeeding. -/
def c2store2 : StoreView :=
  { anchor := .ok (some 100), fetch := .ok [[("spl", some 60)]] }

/-- Lemma: `alertTimes` is exactly the ALERT subsequence of the events collected
by `runMachine`, tagged with their emission times. -/
theorem alertTimes_eq_runMachine (cfg : Config) :
    ∀ (inputs : List StepInput) (m : Machine),
      alertTimes cfg m inputs = (runMachine cfg m inputs).2.filterMap
        (fun p => if p.2.type = "ALERT" then some (p.1 * 1000) else none)
  | [], m => by simp [alertTimes, runMachine]
  | i :: rest, m => by
      have ih := alertTimes_eq_runMachine cfg rest (m.step cfg i.now i.fact i.tv).1
      rw [alertTimes, runMachine]
      rcases hr : (m.step cfg i.now i.fact i.tv).2 with _ | ev
      · simpa [hr] using ih
      · by_cases hA : ev.type = "ALERT" <;> simp [hr, hA, ih]

/-! ## Claim C1 — threshold evaluation -/

/-- C1 (counterexample): a band with a configured threshold (31.5 Hz at 50)
whose window aggregate is missing is absent from the exceedance result, so
levels/bands without a configured threshold are NOT the only absent ones. -/
theorem C1_counterexample :
    List.lookup "31.5_Hz" c1config.umik_thr_bands = some 50 ∧
    List.lookup "31.5_Hz"
      (check_levels_and_bands c1fact c1config).exceeded_bands = none := by
  constructor
  · rfl
  · rfl

/-- Looking up "spl" in the UMIK levels dict. -/
theorem lookup_umikLevels_spl (f : Fact) (c : Config) :
    List.lookup "spl" (umikLevels f c) =
      c.umik_thr_spl.map (presentAndGt f.spl_max) := by
  unfold umikLevels
  cases c.umik_thr_spl <;> cases c.umik_thr_leq_1s <;>
    cases c.umik_thr_leq_60s <;> cases c.umik_thr_lmax <;>
    simp [List.lookup]

/-- Looking up "leq_1s" in the UMIK levels dict. -/
theorem lookup_umikLevels_leq1s (f : Fact) (c : Config) :
    List.lookup "leq_1s" (umikLevels f c) =
      c.umik_thr_leq_1s.map (presentAndGt f.leq_1s_avg) := by
  unfold umikLevels
  cases c.umik_thr_spl <;> cases c.umik_thr_leq_1s <;>
    cases c.umik_thr_leq_60s <;> cases c.umik_thr_lmax <;>
    simp [List.lookup]

/-- Looking up "leq_60s" in the UMIK levels dict. -/
theorem lookup_umikLevels_leq60s (f : Fact) (c : Config) :
    List.lookup "leq_60s" (umikLevels f c) =
      c.umik_thr_leq_60s.map (presentAndGt f.leq_60s_last) := by
  unfold umikLevels
  cases c.umik_thr_spl <;> cases c.umik_thr_leq_1s <;>
    cases c.umik_thr_leq_60s <;> cases c.umik_thr_lmax <;>
    simp [List.lookup]

/-- Looking up "lmax" in the UMIK levels dict. -/
theorem lookup_umikLevels_lmax (f : Fact) (c : Config) :
    List.lookup "lmax" (umikLevels f c) =
      c.umik_thr_lmax.map (presentAndGt f.lmax_max) := by
  unfold umikLevels
  cases c.umik_thr_spl <;> cases c.umik_thr_leq_1s <;>
    cases c.umik_thr_leq_60s <;> cases c.umik_thr_lmax <;>
    simp [List.lookup]

/-- Membership in the UMIK bands dict: exactly the configured bands whose
window aggregate is present, mapped to the strict comparison. -/
theorem mem_umikBands (f : Fact) (c : Config) (band : String) (b : Bool) :
    (band, b) ∈ umikBands f c ↔
      ∃ thr, (band, thr) ∈ c.umik_thr_bands ∧
        ∃ v, Row.get f.bands_max band = some v ∧ b = decide (v > thr) := by
  unfold umikBands
  rw [List.mem_filterMap]
  constructor
  · rintro ⟨⟨bd, thr⟩, hmem, hf⟩
    dsimp only at hf
    rcases hval : Row.get f.bands_max bd with _ | v <;> rw [hval] at hf
    · cases hf
    · simp only [Option.some.injEq, Prod.mk.injEq] at hf
      obtain ⟨rfl, rfl⟩ := hf
      exact ⟨thr, hmem, v, hval, rfl⟩
  · rintro ⟨thr, hmem, v, hget, rfl⟩
    exact ⟨(band, thr), hmem, by simp [hget]⟩

/-- Overall exceedance flag: true iff some entry of either dict is true. -/
theorem is_exceeded_flag_iff (f : Fact) :
    (is_exceeded f).1 = true ↔
      ((∃ p ∈ f.exceeded_levels, p.2 = true) ∨
       (∃ p ∈ f.exceeded_bands, p.2 = true)) := by
  simp [is_exceeded, List.any_eq_true]

/-- Looking up "spl" in the ANALOG levels dict. -/
theorem lookup_analogLevels_spl (f : Fact) (c : Config) :
    List.lookup "spl" (analogLevels f c) =
      c.analog_thr_spl.map (presentAndGt f.spl_max) := by
  unfold analogLevels
  cases c.analog_thr_spl <;> cases c.analog_thr_leq <;>
    cases c.analog_thr_lmax <;> simp [List.lookup]

/-- Looking up "leq" in the ANALOG levels dict. -/
theorem lookup_analogLevels_leq (f : Fact) (c : Config) :
    List.lookup "leq" (analogLevels f c) =
      c.analog_thr_leq.map (presentAndGt f.leq_avg) := by
  unfold analogLevels
  cases c.analog_thr_spl <;> cases c.analog_thr_leq <;>
    cases c.analog_thr_lmax <;> simp [List.lookup]

/-- Looking up "lmax" in the ANALOG levels dict. -/
theorem lookup_analogLevels_lmax (f : Fact) (c : Config) :
    List.lookup "lmax" (analogLevels f c) =
      c.analog_thr_lmax.map (presentAndGt f.lmax_max) := by
  unfold analogLevels
  cases c.analog_thr_spl <;> cases c.analog_thr_leq <;>
    cases c.analog_thr_lmax <;> simp [List.lookup]

/-- C1 (amended): for a known source, a LEVEL entry is present iff its
threshold is configured, and is `true` iff the aggregate is present and
strictly exceeds the threshold; a BAND entry is present iff its threshold
is configured AND its window aggregate is present (a configured band with a
missing aggregate is absent, not false), and is `true` iff the aggregate
strictly exceeds the threshold; and the overall exceeded flag is true iff
at least one level or band entry in the result is true. -/
theorem C1_amended_thm (fact : Fact) (config : Config) :
    (fact.src = "UMIK" →
      List.lookup "spl" (check_levels_and_bands fact config).exceeded_levels =
        config.umik_thr_spl.map (presentAndGt fact.spl_max) ∧
      List.lookup "leq_1s" (check_levels_and_bands fact config).exceeded_levels =
        config.umik_thr_leq_1s.map (presentAndGt fact.leq_1s_avg) ∧
      List.lookup "leq_60s" (check_levels_and_bands fact config).exceeded_levels =
        config.umik_thr_leq_60s.map (presentAndGt fact.leq_60s_last) ∧
      List.lookup "lmax" (check_levels_and_bands fact config).exceeded_levels =
        config.umik_thr_lmax.map (presentAndGt fact.lmax_max) ∧
      (∀ band b, (band, b) ∈ (check_levels_and_bands fact config).exceeded_bands ↔
        ∃ thr, (band, thr) ∈ config.umik_thr_bands ∧
          ∃ v, Row.get fact.bands_max band = some v ∧ b = decide (v > thr))) ∧
    (fact.src = "ANALOG" →
      List.lookup "spl" (check_levels_and_bands fact config).exceeded_levels =
        config.analog_thr_spl.map (presentAndGt fact.spl_max) ∧
      List.lookup "leq" (check_levels_and_bands fact config).exceeded_levels =
        config.analog_thr_leq.map (presentAndGt fact.leq_avg) ∧
      List.lookup "lmax" (check_levels_and_bands fact config).exceeded_levels =
        config.analog_thr_lmax.map (presentAndGt fact.lmax_max) ∧
      (check_levels_and_bands fact config).exceeded_bands = []) ∧
    ((is_exceeded (check_levels_and_bands fact config)).1 = true ↔
      ((∃ p ∈ (check_levels_and_bands fact config).exceeded_levels, p.2 = true) ∨
       (∃ p ∈ (check_levels_and_bands fact config).exceeded_bands, p.2 = true))) := by
  refine ⟨fun hsrc => ?_, fun hsrc => ?_, is_exceeded_flag_iff _⟩
  · have hcheck : check_levels_and_bands fact config =
        { fact with
            exceeded_levels := umikLevels fact config
            exceeded_bands := umikBands fact config } := by
      unfold check_levels_and_bands
      rw [if_pos hsrc]
    rw [hcheck]
    exact ⟨lookup_umikLevels_spl fact config,
           lookup_umikLevels_leq1s fact config,
           lookup_umikLevels_leq60s fact config,
           lookup_umikLevels_lmax fact config,
           fun band b => mem_umikBands fact config band b⟩
  · have hne : fact.src ≠ "UMIK" := by rw [hsrc]; decide
    have hcheck : check_levels_and_bands fact config =
        { fact with
            exceeded_levels := analogLevels fact config
            exceeded_bands := [] } := by
      unfold check_levels_and_bands
      rw [if_neg hne, if_pos hsrc]
    rw [hcheck]
    exact ⟨lookup_analogLevels_spl fact config,
           lookup_analogLevels_leq fact config,
           lookup_analogLevels_lmax fact config, rfl⟩

/-- C1 witness: the amended theorem applied to the concrete UMIK fact and
config of the counterexample. -/
theorem C1_amended_witness :
    List.lookup "spl" (check_levels_and_bands c1fact c1config).exceeded_levels =
      c1config.umik_thr_spl.map (presentAndGt c1fact.spl_max) :=
  ((C1_amended_thm c1fact c1config).1 rfl).1

/-! ## Claim C8 — unknown source identity -/

/-- C8 (counterexample): for an unknown source the evaluator returns
normally (it is a total function in the source: the `else` branch only
logs a warning) with both exceedance dicts empty — the call succeeds
silently with an empty exceedance result, even though the fact carries a
value exceeding both configured thresholds. -/
theorem C8_counterexample :
    c8fact.src ≠ "UMIK" ∧ c8fact.src ≠ "ANALOG" ∧
    c8fact.spl_max = some 90 ∧
    c8config.umik_thr_spl = some 50 ∧ c8config.analog_thr_spl = some 50 ∧
    check_levels_and_bands c8fact c8config =
      { c8fact with exceeded_levels := [], exceeded_bands := [] } ∧
    (is_exceeded (check_levels_and_bands c8fact c8config)).1 = false := by
  refine ⟨by decide, by decide, rfl, rfl, rfl, rfl, rfl⟩

/-- C8 (amended): a `WindowFact` with an unknown source identity is NOT
reported as an error to the caller: `check_levels_and_bands` returns the
fact unchanged except that both exceedance dicts are set empty, and the
overall exceeded flag of the result is false. -/
theorem C8_amended_thm (fact : Fact) (config : Config)
    (h1 : fact.src ≠ "UMIK") (h2 : fact.src ≠ "ANALOG") :
    check_levels_and_bands fact config =
      { fact with exceeded_levels := [], exceeded_bands := [] } ∧
    (is_exceeded (check_levels_and_bands fact config)).1 = false := by
  have hcheck : check_levels_and_bands fact config =
      { fact with exceeded_levels := [], exceeded_bands := [] } := by
    unfold check_levels_and_bands
    rw [if_neg h1, if_neg h2]
  exact ⟨hcheck, by rw [hcheck]; rfl⟩

/-- C8 witness: the amended theorem at the concrete unknown-source fact. -/
theorem C8_amended_witness :
    check_levels_and_bands c8fact c8config =
      { c8fact with exceeded_levels := [], exceeded_bands := [] } ∧
    (is_exceeded (check_levels_and_bands c8fact c8config)).1 = false :=
  C8_amended_thm c8fact c8config (by decide) (by decide)

/-! ## Claim C6 — COOLDOWN behaviour -/

/-- C6: a step in COOLDOWN returns no event; once `cooldownDuration` has
elapsed since entering COOLDOWN (`last_transition`), the machine moves to
NORMAL — regardless of the exceedance flag — resetting both counters and
clearing both start markers; otherwise it stays in COOLDOWN. -/
theorem C6_thm (m : Machine) (cfg : Config) (now : ℚ) (fact : Fact)
    (tv : ThresholdsView) (h : m.state = .COOLDOWN) :
    (m.step cfg now fact tv).2 = none ∧
    ((now - m.last_transition) * 1000 ≥ cfg.cooldown_ms →
      (m.step cfg now fact tv).1.state = .NORMAL ∧
      (m.step cfg now fact tv).1.consec_hit = 0 ∧
      (m.step cfg now fact tv).1.consec_ok = 0 ∧
      (m.step cfg now fact tv).1.active_since = none ∧
      (m.step cfg now fact tv).1.recovery_since = none) ∧
    (¬ (now - m.last_transition) * 1000 ≥ cfg.cooldown_ms →
      (m.step cfg now fact tv).1.state = .COOLDOWN) := by
  unfold Machine.step
  cases hf : (is_exceeded fact).1 <;>
    by_cases hc : (now - m.last_transition) * 1000 ≥ cfg.cooldown_ms <;>
      simp [hf, h, hc]

/-- C6 witness: the spec scenario — COOLDOWN entered at t = 1 s with a
3000 ms cooldown transitions to NORMAL when stepped at t = 4.001 s, and is
still in COOLDOWN when stepped at t = 3.999 s. -/
theorem C6_witness :
    (c6machine.step c6config (4001/1000) c6fact {}).1.state = .NORMAL ∧
    (c6machine.step c6config (3999/1000) c6fact {}).1.state = .COOLDOWN ∧
    (c6machine.step c6config (4001/1000) c6fact {}).2 = none := by
  refine ⟨((C6_thm c6machine c6config (4001/1000) c6fact {} rfl).2.1
      (by norm_num [c6machine, c6config])).1,
    (C6_thm c6machine c6config (3999/1000) c6fact {} rfl).2.2
      (by norm_num [c6machine, c6config]),
    (C6_thm c6machine c6config (4001/1000) c6fact {} rfl).1⟩

/-! ## Claim C3 — NORMAL → ALERT -/

/-- C3: from NORMAL, a step returns an event iff ALL of: the poll is
exceeding; the exceedance run (started at `active_since`, or at `now` if
this poll begins it) has lasted at least `triggerHold`; the
consecutive-exceeding count including this poll reaches
`consecutiveRequired`; and either no ALERT was ever emitted or at least
`retriggerGap` ms have elapsed since the last one.  When it fires, the
event is an ALERT, the emission time `now * 1000` is recorded, and the
post-call state is already COOLDOWN. -/
theorem C3_thm (m : Machine) (cfg : Config) (now : ℚ) (fact : Fact)
    (tv : ThresholdsView) (h : m.state = .NORMAL) :
    ((m.step cfg now fact tv).2 ≠ none ↔
      ((is_exceeded fact).1 = true ∧
       (now - m.active_since.getD now) * 1000 ≥ cfg.trigger_hold_ms ∧
       ((m.consec_hit + 1 : ℕ) : ℤ) ≥ cfg.consecutive_required ∧
       (∀ t, m.last_alert_at_ms = some t →
          now * 1000 - t ≥ cfg.retrigger_gap_ms))) ∧
    (∀ ev, (m.step cfg now fact tv).2 = some ev →
      ev.type = "ALERT" ∧
      (m.step cfg now fact tv).1.state = .COOLDOWN ∧
      (m.step cfg now fact tv).1.last_alert_at_ms = some (now * 1000)) := by
  unfold Machine.step
  cases hf : (is_exceeded fact).1
  · rcases hla : m.last_alert_at_ms with _ | t <;> simp [h, hf, hla]
  · rcases hla : m.last_alert_at_ms with _ | t
    · by_cases h1 : (now - m.active_since.getD now) * 1000 ≥ cfg.trigger_hold_ms <;>
        by_cases h2 : cfg.consecutive_required ≤ (m.consec_hit : ℤ) + 1 <;>
        simp [h, hf, hla, h1, h2, Machine.make_event]
    · by_cases h1 : (now - m.active_since.getD now) * 1000 ≥ cfg.trigger_hold_ms <;>
        by_cases h2 : cfg.consecutive_required ≤ (m.consec_hit : ℤ) + 1 <;>
        by_cases h3 : now * 1000 - t ≥ cfg.retrigger_gap_ms <;>
        simp [h, hf, hla, h1, h2, h3, Machine.make_event]

/-- C3 witness: at t = 1 s the third exceeding poll fires an ALERT and the
machine is left in COOLDOWN with the emission time recorded. -/
theorem C3_witness :
    (c3machine.step c3config 1 c3fact {}).2 ≠ none := by
  refine (C3_thm c3machine c3config 1 c3fact {} rfl).1.mpr
    ⟨by decide, by norm_num [c3machine, c3config],
     by norm_num [c3machine, c3config], by simp [c3machine, Machine.init]⟩

/-! ## Claim C10 — ALERT is transient, RECOVERY unreachable -/

/-- One step from a non-ALERT state lands in a non-ALERT state, and any
event it returns is an ALERT event. -/
theorem step_keeps_out_of_alert (m : Machine) (cfg : Config) (now : ℚ)
    (fact : Fact) (tv : ThresholdsView) (h : m.state ≠ .ALERT) :
    (m.step cfg now fact tv).1.state ≠ .ALERT ∧
    (∀ ev, (m.step cfg now fact tv).2 = some ev → ev.type = "ALERT") := by
  cases hsm : m.state with
  | ALERT => exact absurd hsm h
  | NORMAL =>
      unfold Machine.step
      cases hf : (is_exceeded fact).1
      · simp [hf, hsm]
      · simp [hf, hsm]
        split <;> simp [Machine.make_event]
  | COOLDOWN =>
      unfold Machine.step
      cases hf : (is_exceeded fact).1
      · simp [hf, hsm]
        split <;> simp
      · simp [hf, hsm]
        split <;> simp

/-- A run started outside ALERT stays outside ALERT and only ever emits
ALERT events. -/
theorem runMachine_not_alert (cfg : Config) :
    ∀ (inputs : List StepInput) (m : Machine), m.state ≠ .ALERT →
      (runMachine cfg m inputs).1.state ≠ .ALERT ∧
      ∀ p ∈ (runMachine cfg m inputs).2, p.2.type = "ALERT"
  | [], m, h => ⟨h, by simp [runMachine]⟩
  | i :: rest, m, h => by
      have hstep := step_keeps_out_of_alert m cfg i.now i.fact i.tv h
      have ih := runMachine_not_alert cfg rest
        (m.step cfg i.now i.fact i.tv).1 hstep.1
      constructor
      · simpa [runMachine] using ih.1
      · intro p hp
        rw [runMachine] at hp
        rcases hr : (m.step cfg i.now i.fact i.tv).2 with _ | ev
        · rw [hr] at hp
          simp at hp
          exact ih.2 p hp
        · rw [hr] at hp
          simp at hp
          rcases hp with hp | hp
          · rw [hp]
            exact hstep.2 ev hr
          · exact ih.2 p hp

/-- C10: from the initial NORMAL state, after any finite sequence of step
calls the machine is observably in NORMAL or COOLDOWN (never ALERT), and
every event any of those calls returned is an ALERT event — no RECOVERY
event is ever returned. -/
theorem C10_thm (src : String) (now0 : ℚ) (cfg : Config)
    (inputs : List StepInput) :
    ((runMachine cfg (Machine.init src now0) inputs).1.state = .NORMAL ∨
     (runMachine cfg (Machine.init src now0) inputs).1.state = .COOLDOWN) ∧
    ∀ p ∈ (runMachine cfg (Machine.init src now0) inputs).2,
      p.2.type = "ALERT" := by
  have h := runMachine_not_alert cfg inputs (Machine.init src now0)
    (by simp [Machine.init])
  refine ⟨?_, h.2⟩
  cases hs : (runMachine cfg (Machine.init src now0) inputs).1.state with
  | NORMAL => exact Or.inl rfl
  | ALERT => exact absurd hs h.1
  | COOLDOWN => exact Or.inr rfl

/-! ## Claim C4 — retrigger gap -/

/-- When a step returns an ALERT event, the machine records `now * 1000`
as the last-alert time, and if an alert time was already recorded, at
least `retriggerGap` ms have elapsed since it. -/
theorem step_alert_gap (m : Machine) (cfg : Config) (now : ℚ) (fact : Fact)
    (tv : ThresholdsView) (ev : Event)
    (h : (m.step cfg now fact tv).2 = some ev) (ht : ev.type = "ALERT") :
    (m.step cfg now fact tv).1.last_alert_at_ms = some (now * 1000) ∧
    (∀ t, m.last_alert_at_ms = some t →
       now * 1000 - t ≥ cfg.retrigger_gap_ms) := by
  cases hsm : m.state with
  | NORMAL =>
      unfold Machine.step at h ⊢
      cases hf : (is_exceeded fact).1
      · simp [hf, hsm] at h
      · simp [hf, hsm] at h ⊢
        split at h
        · next hcond =>
            rw [if_pos hcond]
            refine ⟨by simp, fun t hla => ?_⟩
            rw [hla] at hcond
            simpa using hcond.2
        · simp at h
  | ALERT =>
      unfold Machine.step at h
      cases hf : (is_exceeded fact).1 <;>
        simp [hf, hsm] at h <;>
        split at h <;>
        first
          | simp at h
          | (split at h <;>
              first
                | (have hx := Option.some.inj h
                   rw [← hx] at ht
                   simp [Machine.make_event] at ht)
                | simp at h)
  | COOLDOWN =>
      unfold Machine.step at h
      cases hf : (is_exceeded fact).1 <;>
        simp [hf, hsm] at h <;> split at h <;> simp at h

/-- A step that does not return an ALERT event leaves the recorded
last-alert time unchanged. -/
theorem step_no_alert_keeps_time (m : Machine) (cfg : Config) (now : ℚ)
    (fact : Fact) (tv : ThresholdsView)
    (h : ∀ ev, (m.step cfg now fact tv).2 = some ev → ev.type ≠ "ALERT") :
    (m.step cfg now fact tv).1.last_alert_at_ms = m.last_alert_at_ms := by
  cases hsm : m.state with
  | NORMAL =>
      unfold Machine.step at h ⊢
      cases hf : (is_exceeded fact).1
      · simp [hf, hsm]
      · simp [hf, hsm] at h ⊢
        split
        · next hcond =>
            have hcontra := h _ (by rw [if_pos hcond])
            simp [Machine.make_event] at hcontra
        · simp
  | ALERT =>
      unfold Machine.step
      cases hf : (is_exceeded fact).1 <;>
        simp [hf, hsm] <;>
        first
          | (split <;>
              first
                | (split <;> simp)
                | simp)
          | simp
  | COOLDOWN =>
      unfold Machine.step
      cases hf : (is_exceeded fact).1 <;>
        simp [hf, hsm] <;> split <;> simp

/-- Invariant for the retrigger-gap property: prepending the currently
recorded last-alert time (if any) to the alert times of any run yields a
list whose consecutive elements are at least `retriggerGap` ms apart. -/
theorem alertTimes_chain_aux (cfg : Config) :
    ∀ (inputs : List StepInput) (m : Machine),
      List.Chain' (fun a b => b - a ≥ cfg.retrigger_gap_ms)
        (m.last_alert_at_ms.toList ++ alertTimes cfg m inputs)
  | [], m => by
      rcases m.last_alert_at_ms with _ | t <;> simp [alertTimes]
  | i :: rest, m => by
      have ih := alertTimes_chain_aux cfg rest (m.step cfg i.now i.fact i.tv).1
      rw [alertTimes]
      rcases hr : (m.step cfg i.now i.fact i.tv).2 with _ | ev
      · have hkeep := step_no_alert_keeps_time m cfg i.now i.fact i.tv
          (fun ev hev => by rw [hr] at hev; cases hev)
        rw [hkeep] at ih
        exact ih
      · by_cases hA : ev.type = "ALERT"
        · have hgap := step_alert_gap m cfg i.now i.fact i.tv ev hr hA
          rw [hgap.1] at ih
          simp only [hA, if_true]
          rcases hla : m.last_alert_at_ms with _ | t
          · simpa using ih
          · simp only [Option.toList_some, List.singleton_append]
            rw [List.chain'_cons]
            exact ⟨hgap.2 t hla, by simpa using ih⟩
        · have hkeep := step_no_alert_keeps_time m cfg i.now i.fact i.tv
            (fun ev' hev => by rw [hr] at hev; rw [← Option.some.inj hev]; exact hA)
          rw [hkeep] at ih
          simp only [hA, if_false]
          exact ih

/-- C4: over any finite sequence of step calls on one source's machine
(started in its initial state), the successive ALERT emission times are
never closer together than `retriggerGap` ms: whenever an ALERT is
returned, either it is the first one or at least `retriggerGap` has
elapsed since the previously returned ALERT. -/
theorem C4_thm (cfg : Config) (src : String) (now0 : ℚ)
    (inputs : List StepInput) :
    List.Chain' (fun a b => b - a ≥ cfg.retrigger_gap_ms)
      (alertTimes cfg (Machine.init src now0) inputs) := by
  have h := alertTimes_chain_aux cfg inputs (Machine.init src now0)
  simpa [Machine.init] using h

/-! ## Claim C7 — aggregation ignores missing values -/

/-- The aggregate `_safe_max` is `None` exactly when every value is `None`. -/
theorem safe_max_eq_none_iff (l : List (Option ℚ)) :
    safe_max l = none ↔ ∀ x ∈ l, x = none := by
  simp [safe_max, List.max?_eq_none_iff, List.filterMap_eq_nil_iff]

/-- The aggregate `_safe_max` returns `some v` exactly when `v` occurs among the
non-missing values and dominates all of them: `None`s are ignored. -/
theorem safe_max_eq_some_iff (l : List (Option ℚ)) (v : ℚ) :
    safe_max l = some v ↔
      (some v ∈ l ∧ ∀ w, some w ∈ l → w ≤ v) := by
  rw [safe_max,
    @List.max?_eq_some_iff ℚ v _ _ ⟨fun h h2 => le_antisymm h h2⟩
      (fun a => le_refl a) (fun a b => max_choice a b)
      (fun a b c => max_le_iff)]
  simp [List.mem_filterMap]

/-- The aggregate `_safe_avg` is `None` exactly when every value is `None`. -/
theorem safe_avg_eq_none_iff (l : List (Option ℚ)) :
    safe_avg l = none ↔ ∀ x ∈ l, x = none := by
  have hiff : (List.filterMap id l = []) ↔ ∀ x ∈ l, x = none := by
    simp [List.filterMap_eq_nil_iff]
  unfold safe_avg
  rw [← hiff]
  split
  · next hE => simp [hE]
  · next hE => simp [hE]

/-- When at least one value is present, `_safe_avg` is the arithmetic mean
of the non-missing values. -/
theorem safe_avg_eq_some (l : List (Option ℚ)) (h : ∃ x ∈ l, x ≠ none) :
    safe_avg l = some ((l.filterMap id).sum / (l.filterMap id).length) := by
  unfold safe_avg
  split
  · next hE =>
      rw [List.filterMap_eq_nil_iff] at hE
      obtain ⟨x, hx, hxn⟩ := h
      exact absurd (hE x hx) (by simpa using hxn)
  · rfl

/-- The `leq_60s` scan skips any leading rows whose `leq_60s` is missing. -/
theorem leq60Scan_append_none (pre rest : List Row)
    (h : ∀ r ∈ pre, Row.get r "leq_60s" = none) :
    leq60Scan (pre ++ rest) = leq60Scan rest := by
  induction pre with
  | nil => rfl
  | cons r pre ih =>
      rw [List.cons_append, leq60Scan, h r (by simp)]
      exact ih (fun r' hr' => h r' (by simp [hr']))

/-- The `leq_60s` scan on a row with the value present returns it. -/
theorem leq60Scan_cons_some (r : Row) (rest : List Row) (v : ℚ)
    (h : Row.get r "leq_60s" = some v) :
    leq60Scan (r :: rest) = some v := by
  rw [leq60Scan, h]

/-- The `leq_60s` scan is `None` when the value is missing in every row. -/
theorem leq60Scan_eq_none (rows : List Row)
    (h : ∀ r ∈ rows, Row.get r "leq_60s" = none) :
    leq60Scan rows = none := by
  induction rows with
  | nil => rfl
  | cons r rest ih =>
      rw [leq60Scan, h r (by simp)]
      exact ih (fun r' hr' => h r' (by simp [hr']))

/-- Unfolding `_make_fact` for the spectrum source, unfolded. -/
theorem make_fact_umik (rows : List Row) (a b : ℚ) :
    make_fact "UMIK" rows a b =
      { src := "UMIK", ts_from := a, ts_to := b,
        spl_max := safe_max (rows.map (fun r => Row.get r "spl")),
        lmax_max := safe_max (rows.map (fun r => Row.get r "lmax")),
        leq_1s_avg := safe_avg (rows.map (fun r => Row.get r "leq_1s")),
        leq_60s_last := leq60Scan rows,
        bands_max := umikBandCols.map
          (fun col => (col, safe_max (rows.map (fun r => Row.get r col)))) } :=
  rfl

/-- Unfolding `_make_fact` for the weighted-level source, unfolded. -/
theorem make_fact_analog (rows : List Row) (a b : ℚ) :
    make_fact "ANALOG" rows a b =
      { src := "ANALOG", ts_from := a, ts_to := b,
        spl_max := safe_max (rows.map (fun r => Row.get r "spl")),
        lmax_max := safe_max (rows.map (fun r => Row.get r "lmax")),
        leq_avg := safe_avg (rows.map (fun r => Row.get r "leq")),
        bands_max := [] } := by
  simp [make_fact]

/-- C7: max- and average-aggregates ignore missing values and are null
(not zero, and the aggregation is a total function, so no exception) when
every value in the column is missing — shown for `spl` (max), `leq_1s`
(average), `leq_60s` (most-recent scan), one octave band (max) and the
ANALOG `leq` (average) — and `leq_60s_last` is the first non-null value
scanning the rows in their stored most-recent-first order, or null if none
is present. -/
theorem C7_thm (rows : List Row) (ts_from ts_to : ℚ) (hne : rows ≠ []) :
    ((∀ r ∈ rows, Row.get r "spl" = none) →
       (make_fact "UMIK" rows ts_from ts_to).spl_max = none) ∧
    ((∀ r ∈ rows, Row.get r "leq_1s" = none) →
       (make_fact "UMIK" rows ts_from ts_to).leq_1s_avg = none) ∧
    ((∀ r ∈ rows, Row.get r "leq_60s" = none) →
       (make_fact "UMIK" rows ts_from ts_to).leq_60s_last = none) ∧
    ((∀ r ∈ rows, Row.get r "1000.0_Hz" = none) →
       Row.get (make_fact "UMIK" rows ts_from ts_to).bands_max "1000.0_Hz" =
         none) ∧
    (∀ v, (make_fact "UMIK" rows ts_from ts_to).spl_max = some v ↔
       (some v ∈ rows.map (fun r => Row.get r "spl") ∧
        ∀ w, some w ∈ rows.map (fun r => Row.get r "spl") → w ≤ v)) ∧
    ((∃ r ∈ rows, Row.get r "leq_1s" ≠ none) →
       (make_fact "UMIK" rows ts_from ts_to).leq_1s_avg =
         some (((rows.map (fun r => Row.get r "leq_1s")).filterMap id).sum /
           ((rows.map (fun r => Row.get r "leq_1s")).filterMap id).length)) ∧
    (∀ pre row suf v, rows = pre ++ row :: suf →
       (∀ p ∈ pre, Row.get p "leq_60s" = none) →
       Row.get row "leq_60s" = some v →
       (make_fact "UMIK" rows ts_from ts_to).leq_60s_last = some v) ∧
    ((∀ r ∈ rows, Row.get r "leq" = none) →
       (make_fact "ANALOG" rows ts_from ts_to).leq_avg = none) := by
  refine ⟨?_, ?_, ?_, ?_, ?_, ?_, ?_, ?_⟩
  · intro h
    rw [make_fact_umik]
    exact (safe_max_eq_none_iff _).mpr (by simpa using h)
  · intro h
    rw [make_fact_umik]
    exact (safe_avg_eq_none_iff _).mpr (by simpa using h)
  · intro h
    rw [make_fact_umik]
    exact leq60Scan_eq_none rows h
  · intro h
    rw [make_fact_umik]
    have hm : safe_max (rows.map (fun r => Row.get r "1000.0_Hz")) = none :=
      (safe_max_eq_none_iff _).mpr (by simpa using h)
    simp [umikBandCols, Row.get, List.lookup]
    exact hm
  · intro v
    rw [make_fact_umik]
    exact safe_max_eq_some_iff _ v
  · intro h
    rw [make_fact_umik]
    apply safe_avg_eq_some
    obtain ⟨r, hr, hv⟩ := h
    exact ⟨Row.get r "leq_1s", List.mem_map_of_mem _ hr, hv⟩
  · intro pre row suf v hrows hpre hrow
    subst hrows
    rw [make_fact_umik]
    show leq60Scan (pre ++ row :: suf) = some v
    rw [leq60Scan_append_none pre _ hpre]
    exact leq60Scan_cons_some row suf v hrow
  · intro h
    rw [make_fact_analog]
    exact (safe_avg_eq_none_iff _).mpr (by simpa using h)

/-- C7 witness: on the concrete window, the most-recent-value aggregate
skips the leading row with a missing `leq_60s` and returns 42. -/
theorem C7_witness :
    (make_fact "UMIK" c7rows 0 5).leq_60s_last = some 42 :=
  (C7_thm c7rows 0 5 (by decide)).2.2.2.2.2.2.1 [c7r1] c7r2 [c7r3] 42 rfl
    (by decide) (by decide)

/-! ## Claims C2 / C5 — anchor bookkeeping in `poll` -/

/-- The dedup guard: when the store's latest timestamp has not advanced
strictly past the recorded anchor, `poll` is a complete no-op. -/
theorem poll_skip (w : WorkerState) (cfg : Config) (now : ℚ)
    (store : StoreView) (ws a la : ℚ)
    (hstop : w.stopped = false) (ha : store.anchor = Except.ok (some a))
    (hla : w.last_anchor = some la) (hle : a ≤ la) :
    poll w cfg now store ws = ⟨w, none, none⟩ := by
  simp [poll, hstop, ha, hla, hle]

/-- After any `poll` that read an anchor `a`, the worker is still running
and its recorded anchor is some value `≥ a`. -/
theorem poll_anchor_after (w : WorkerState) (cfg : Config) (now : ℚ)
    (store : StoreView) (ws a : ℚ)
    (hstop : w.stopped = false) (ha : store.anchor = Except.ok (some a)) :
    (poll w cfg now store ws).worker.stopped = false ∧
    ∃ b, (poll w cfg now store ws).worker.last_anchor = some b ∧ a ≤ b := by
  rcases hla : w.last_anchor with _ | la
  · rcases hfetch : store.fetch with _ | rows
    · simp [poll, hstop, ha, hla, hfetch]
    · by_cases hrows : rows = [] <;>
        simp [poll, hstop, ha, hla, hfetch, hrows]
  · by_cases hle : a ≤ la
    · rw [poll_skip w cfg now store ws a la hstop ha hla hle]
      exact ⟨hstop, la, hla, hle⟩
    · rcases hfetch : store.fetch with _ | rows
      · simp [poll, hstop, ha, hla, hfetch, hle]
      · by_cases hrows : rows = [] <;>
          simp [poll, hstop, ha, hla, hfetch, hle, hrows]

/-- C5: dedup/idempotence.  If the store anchor has not advanced strictly
past the recorded one, `poll` is a no-op (no aggregation, no evaluation,
no state-machine step, no state change); and whatever a first `poll` at
anchor `a` did, a second `poll` with the store still at anchor `a` is a
no-op. -/
theorem C5_thm (w : WorkerState) (cfg : Config) (now now2 : ℚ)
    (store : StoreView) (ws a : ℚ)
    (hstop : w.stopped = false)
    (ha : store.anchor = Except.ok (some a)) :
    (∀ la, w.last_anchor = some la → a ≤ la →
       poll w cfg now store ws = ⟨w, none, none⟩) ∧
    poll (poll w cfg now store ws).worker cfg now2 store ws =
      ⟨(poll w cfg now store ws).worker, none, none⟩ := by
  refine ⟨fun la hla hle => poll_skip w cfg now store ws a la hstop ha hla hle,
    ?_⟩
  obtain ⟨hs, b, hb, hab⟩ := poll_anchor_after w cfg now store ws a hstop ha
  exact poll_skip _ cfg now2 store ws a b hs ha hb hab

/-- C5 witness: polling twice against the same store anchor — the second
call is a no-op. -/
theorem C5_witness :
    poll (poll c5worker c5config 10 c5store 5).worker c5config 11 c5store 5 =
      ⟨(poll c5worker c5config 10 c5store 5).worker, none, none⟩ :=
  (C5_thm c5worker c5config 10 11 c5store 5 100 rfl rfl).2

/-- C2 (counterexample): a poll whose window fetch fails is NOT free of
side effects — the recorded anchor moves from 50 to the failed read's
anchor 100 — and on the next tick the same anchor is NOT re-evaluated:
with the fetch now succeeding, the poll is a no-op, so the failed window
is skipped, never retried. -/
theorem C2_counterexample :
    c2store.fetch = Except.error () ∧
    c2worker.last_anchor = some 50 ∧
    (poll c2worker c5config 10 c2store 5).worker.last_anchor = some 100 ∧
    (poll c2worker c5config 10 c2store 5).worker ≠ c2worker ∧
    c2store2.anchor = c2store.anchor ∧
    poll (poll c2worker c5config 10 c2store 5).worker c5config 11 c2store2 5 =
      ⟨(poll c2worker c5config 10 c2store 5).worker, none, none⟩ := by
  refine ⟨rfl, rfl, rfl, by decide, rfl, rfl⟩

/-- C2 (amended): when the window fetch fails, the poll produces no
`WindowFact`, returns no event and does not step the state machine, but
the recorded anchor HAS already been advanced to the failed read's anchor,
so that window is skipped (not retried) by later ticks. -/
theorem C2_amended_thm (w : WorkerState) (cfg : Config) (now : ℚ)
    (store : StoreView) (ws a : ℚ)
    (hstop : w.stopped = false)
    (ha : store.anchor = Except.ok (some a))
    (hadv : ∀ la, w.last_anchor = some la → la < a)
    (hf : store.fetch = Except.error ()) :
    poll w cfg now store ws = ⟨{ w with last_anchor := some a }, none, none⟩ := by
  rcases hla : w.last_anchor with _ | la
  · simp [poll, hstop, ha, hf, hla]
  · have hnle : ¬ a ≤ la := not_le.mpr (hadv la hla)
    simp [poll, hstop, ha, hf, hla, hnle]

/-- C2 witness: the amended behaviour at the concrete failed fetch. -/
theorem C2_amended_witness :
    poll c2worker c5config 10 c2store 5 =
      ⟨{ c2worker with last_anchor := some 100 }, none, none⟩ :=
  C2_amended_thm c2worker c5config 10 c2store 5 100 rfl rfl
    (fun la hla => by cases hla; norm_num) rfl

/-! ## Claim C9 — sample count and window duration of delivered events -/

/-- Any event a step returns has `samples = 0` and `window_sec` computed
by the builder from the fact's bounds. -/
theorem step_event_samples (m : Machine) (cfg : Config) (now : ℚ)
    (fact : Fact) (tv : ThresholdsView) (ev : Event)
    (h : (m.step cfg now fact tv).2 = some ev) :
    ev.samples = 0 ∧ ev.window_sec = win_seconds fact := by
  cases hsm : m.state with
  | NORMAL =>
      unfold Machine.step at h
      cases hf : (is_exceeded fact).1
      · simp [hf, hsm] at h
      · simp [hf, hsm] at h
        split at h
        · next => rw [← Option.some.inj h]; exact ⟨rfl, rfl⟩
        · simp at h
  | ALERT =>
      unfold Machine.step at h
      cases hf : (is_exceeded fact).1 <;>
        simp [hf, hsm] at h <;>
        split at h <;>
        first
          | simp at h
          | (split at h <;>
              first
                | (rw [← Option.some.inj h]; exact ⟨rfl, rfl⟩)
                | simp at h)
  | COOLDOWN =>
      unfold Machine.step at h
      cases hf : (is_exceeded fact).1 <;>
        simp [hf, hsm] at h <;> split at h <;> simp at h

/-- Any event a poll hands to the notifier still has `samples = 0`: the
worker never overwrites the field the builder left at 0. -/
theorem poll_event_samples (w : WorkerState) (cfg : Config) (now : ℚ)
    (store : StoreView) (ws : ℚ) (ev : Event)
    (h : (poll w cfg now store ws).event = some ev) :
    ev.samples = 0 := by
  unfold poll at h
  by_cases hstop : w.stopped
  · simp [hstop] at h
  · rcases ha : store.anchor with e | oa
    · simp [hstop, ha] at h
    · rcases oa with _ | a
      · simp [hstop, ha] at h
      · simp only [hstop, ha, Bool.false_eq_true, if_false] at h
        split at h
        · simp at h
        · rcases hfetch : store.fetch with e | rows
          · rw [hfetch] at h
            dsimp only at h
            simp at h
          · rw [hfetch] at h
            dsimp only at h
            by_cases hrows : rows = []
            · rw [if_pos hrows] at h
              simp at h
            · rw [if_neg hrows] at h
              exact (step_event_samples w.fsm cfg now _ _ ev h).1

/-- C9: the Event Builder itself fills in `samples := 0` (the Python
comment says the worker will fill it in) and `window_sec` (from the
fact's bounds), and the worker never overwrites either: every event a
step emits, and every event a poll hands to the notifier, carries
`samples = 0` — never the number of aggregated rows. -/
theorem C9_thm :
    (∀ (m : Machine) (etype : String) (fact : Fact) (tv : ThresholdsView)
       (exl exb : List (String × Bool)),
       (m.make_event etype fact tv exl exb).samples = 0) ∧
    (∀ (m : Machine) (cfg : Config) (now : ℚ) (fact : Fact)
       (tv : ThresholdsView),
       (m.step cfg now fact tv).2.map Event.samples = none ∨
       ((m.step cfg now fact tv).2.map Event.samples = some 0 ∧
        (m.step cfg now fact tv).2.map Event.window_sec =
          some (win_seconds fact))) ∧
    (∀ (w : WorkerState) (cfg : Config) (now : ℚ) (store : StoreView)
       (ws : ℚ),
       (poll w cfg now store ws).event.map Event.samples = none ∨
       (poll w cfg now store ws).event.map Event.samples = some 0) := by
  refine ⟨fun m etype fact tv exl exb => rfl, ?_, ?_⟩
  · intro m cfg now fact tv
    rcases hev : (m.step cfg now fact tv).2 with _ | ev
    · exact Or.inl rfl
    · have h := step_event_samples m cfg now fact tv ev hev
      right
      simp [h.1, h.2]
  · intro w cfg now store ws
    rcases hev : (poll w cfg now store ws).event with _ | ev
    · exact Or.inl rfl
    · right
      simp [poll_event_samples w cfg now store ws ev hev]

end SoundAnalizer
